import Mathlib

/-!
Verification development for the roster / auth / SMS logic of
src/nurigo_server_fixed.py (Flask SMS proxy).

Python strings are embedded as lists of characters (PyStr).  String
builtins used by the source (str.isdigit, str.strip, str.startswith,
str.split) are modelled explicitly below; each model carries a note on
the Python semantics it follows.  Python dicts that the source builds by
key insertion (the roster, the per-row dict of csv.DictReader) are
modelled as association lists with the exact insertion / overwrite
discipline of CPython dicts (insertion order preserved, assignment to an
existing key overwrites in place).
-/

set_option maxRecDepth 4000

abbrev PyStr := List Char

/-- Model of Python str.isdigit, per character.  Python returns True for
every character of Unicode Numeric_Type Digit or Decimal; this model
covers the ranges exercised in this development: the ASCII digits, the
superscript digits U+00B9/U+00B2/U+00B3 (for which CPython returns
True), the Arabic-Indic digits U+0660..U+0669 and the fullwidth digits
U+FF10..U+FF19. -/
def pyIsDigit (c : Char) : Bool :=
  decide ((48 ≤ c.toNat ∧ c.toNat ≤ 57)
    ∨ c.toNat = 178 ∨ c.toNat = 179 ∨ c.toNat = 185
    ∨ (1632 ≤ c.toNat ∧ c.toNat ≤ 1641)
    ∨ (65296 ≤ c.toNat ∧ c.toNat ≤ 65305))

/-- Embedding of normalize_phone (nurigo_server_fixed.py lines 50-53):
keep exactly the characters for which ch.isdigit() holds. -/
def normalize_phone (s : PyStr) : PyStr :=
  s.filter pyIsDigit

/-- Model of the whitespace class stripped by Python str.strip() with no
argument, restricted to the ASCII whitespace characters (space, tab,
newline, carriage return, vertical tab, form feed). -/
def pyIsSpace (c : Char) : Bool :=
  decide (c.toNat = 32 ∨ (9 ≤ c.toNat ∧ c.toNat ≤ 13))

/-- Model of Python str.strip(): drop whitespace from the front, then
from the back. -/
def pyStrip (s : PyStr) : PyStr :=
  ((s.dropWhile pyIsSpace).reverse.dropWhile pyIsSpace).reverse

/- Header keys used by roster_from_csv_text / load_roster (lines 92-98
and 119-125 of nurigo_server_fixed.py).  The Korean keys are 담당
(homeroom duty), 선생님 (teacher), 이름 (name), 학부모 (parent),
학부모전화 (parent phone), 학생 (student), 학생전화 (student phone). -/

def kTeacher : PyStr := "teacher".toList
def kDamdang : PyStr := "담당".toList
def kSeonsaeng : PyStr := "선생님".toList
def kName : PyStr := "name".toList
def kIreum : PyStr := "이름".toList
def kParentPhone : PyStr := "parentPhone".toList
def kParent : PyStr := "parent".toList
def kHakbumo : PyStr := "학부모".toList
def kHakbumoTel : PyStr := "학부모전화".toList
def kStudentPhone : PyStr := "studentPhone".toList
def kStudent : PyStr := "student".toList
def kHaksaeng : PyStr := "학생".toList
def kHaksaengTel : PyStr := "학생전화".toList

/-- Keys tried for the teacher value, in source order:
row.get("teacher") or row.get("담당") or row.get("선생님"). -/
def teacherKeys : List PyStr := [kTeacher, kDamdang, kSeonsaeng]

/-- Keys tried for the name value, in source order:
row.get("name") or row.get("이름"). -/
def nameKeys : List PyStr := [kName, kIreum]

/-- Keys tried for the parent phone, in source order. -/
def parentKeys : List PyStr := [kParentPhone, kParent, kHakbumo, kHakbumoTel]

/-- Keys tried for the student phone, in source order. -/
def studentKeys : List PyStr := [kStudentPhone, kStudent, kHaksaeng, kHaksaengTel]

/-- Index of the last occurrence of key among the headers, if any.
The last occurrence is the relevant one because csv.DictReader builds
the row dict with dict(zip(fieldnames, row)) (plus a restval pass for
missing cells), where a later duplicate fieldname overwrites an earlier
one. -/
def lastIdx? : List PyStr → PyStr → Option Nat
  | [], _ => none
  | h :: t, key =>
    match lastIdx? t key with
    | some i => some (i + 1)
    | none => if h = key then some 0 else none

/-- Model of row.get(key) for a csv.DictReader row: none when the key is
not a fieldname at all, and none (restval) when the row has no cell in
that column; otherwise the cell at the column of the key. -/
def rowGet (headers cells : List PyStr) (key : PyStr) : Option PyStr :=
  match lastIdx? headers key with
  | none => none
  | some i => cells.get? i

/-- Model of the Python expression (a or b) for a : Option str (result
of dict.get) and b : str — None and the empty string are falsy. -/
def pyOrStr (a : Option PyStr) (b : PyStr) : PyStr :=
  match a with
  | none => b
  | some s => if s = [] then b else s

/-- The or-chain row.get(k1) or row.get(k2) or ... or "" over a list of
keys, exactly as written in roster_from_csv_text. -/
def resolveField (keys : List PyStr) (headers cells : List PyStr) : PyStr :=
  match keys with
  | [] => []
  | k :: rest => pyOrStr (rowGet headers cells k) (resolveField rest headers cells)

/-- teacher = (row.get("teacher") or row.get("담당") or row.get("선생님")
or "").strip() — line 120. -/
def resolveTeacher (headers cells : List PyStr) : PyStr :=
  pyStrip (resolveField teacherKeys headers cells)

/-- name = (row.get("name") or row.get("이름") or "").strip() — line 121. -/
def resolveName (headers cells : List PyStr) : PyStr :=
  pyStrip (resolveField nameKeys headers cells)

/-- parent_phone = normalize_phone(row.get("parentPhone") or ... or "") —
line 124. -/
def resolveParentPhone (headers cells : List PyStr) : PyStr :=
  normalize_phone (resolveField parentKeys headers cells)

/-- student_phone = normalize_phone(row.get("studentPhone") or ... or "") —
line 125. -/
def resolveStudentPhone (headers cells : List PyStr) : PyStr :=
  normalize_phone (resolveField studentKeys headers cells)

/-- One student record as built by roster_from_csv_text (lines 126-130)
and by the json paths: the dict literal has exactly the keys name,
parentPhone, studentPhone. -/
structure Rec where
  name : PyStr
  parentPhone : PyStr
  studentPhone : PyStr
deriving DecidableEq

abbrev Roster := List (PyStr × List Rec)

/-- The record appended for a csv row. -/
def mkRec (headers cells : List PyStr) : Rec :=
  ⟨resolveName headers cells, resolveParentPhone headers cells,
    resolveStudentPhone headers cells⟩

/-- The row-skip condition of lines 122-123: if not teacher or not name:
continue. -/
def skippedRowB (headers cells : List PyStr) : Bool :=
  decide (resolveTeacher headers cells = [] ∨ resolveName headers cells = [])

/-- Model of out.setdefault(teacher, []).append(rec) on a Python dict:
append to the list of an existing key in place, else add the key at the
end. -/
def setdefaultAppend : Roster → PyStr → Rec → Roster
  | [], k, r => [(k, [r])]
  | (k0, l) :: rest, k, r =>
    if k0 = k then (k0, l ++ [r]) :: rest
    else (k0, l) :: setdefaultAppend rest k r

/-- One iteration of the row loop of roster_from_csv_text (lines 119-130). -/
def processRow (headers : List PyStr) (out : Roster) (cells : List PyStr) : Roster :=
  if skippedRowB headers cells then out
  else setdefaultAppend out (resolveTeacher headers cells) (mkRec headers cells)

/-- Embedding of roster_from_csv_text (lines 114-131) after the csv
module has tokenized the text into a header row and data rows; the csv
tokenizer itself is an external collaborator.  csv.DictReader skips
fully empty rows, but such rows resolve an empty teacher and are skipped
by the loop body as well, so including them changes nothing. -/
def roster_from_csv_rows (headers : List PyStr) (rows : List (List PyStr)) : Roster :=
  rows.foldl (processRow headers) []

/-- Total number of student records in a roster. -/
def totalRecs : Roster → Nat
  | [] => 0
  | (_, l) :: rest => l.length + totalRecs rest

/-- Python string comparison (code point lexicographic), used by
sorted(list(roster.keys())). -/
def lexLe : PyStr → PyStr → Bool
  | [], _ => true
  | _ :: _, [] => false
  | x :: xs, y :: ys => if x = y then lexLe xs ys else decide (x.toNat < y.toNat)

def insortTeacher (k : PyStr) : List PyStr → List PyStr
  | [] => [k]
  | x :: xs => if lexLe k x then k :: x :: xs else x :: insortTeacher k xs

/-- Model of Python sorted() on a list of strings. -/
def pySorted (l : List PyStr) : List PyStr := l.foldr insortTeacher []

/-- Shape of the JSON reply of api_roster_upload. -/
structure UploadResp where
  status : Nat
  ok : Bool
  teachers : List PyStr
  source : PyStr
deriving DecidableEq

/-- Embedding of the CSV branch of api_roster_upload (lines 301-308): it
builds the roster, unconditionally saves it (second component: the
stored roster after save_roster), and replies 200 with ok True. -/
def api_roster_upload_csv (headers : List PyStr) (rows : List (List PyStr)) :
    UploadResp × Roster :=
  let roster := roster_from_csv_rows headers rows
  (⟨200, true, pySorted (roster.map (fun p => p.1)), "csv".toList⟩, roster)

/-- An entry of a submitted student list as the json normalization loops
see it: a dict (with the string values str(it.get("name", "")),
str-of-get for the phones — absent keys already collapsed to "") or a
non-dict entry. -/
inductive JItem where
  | obj (name parentPhone studentPhone : PyStr)
  | nonDict
deriving DecidableEq

/-- Body of the inner loop shared by roster_from_json (lines 146-156)
and api_roster_set (lines 251-261): skip non-dicts, strip the name, skip
empty names, normalize the phones. -/
def normItem : JItem → Option Rec
  | .nonDict => none
  | .obj n pp sp =>
    let name := pyStrip n
    if name = [] then none
    else some ⟨name, normalize_phone pp, normalize_phone sp⟩

/-- A JSON value sitting under a teacher key: a list of items or
anything else. -/
inductive JVal where
  | list (items : List JItem)
  | nonList
deriving DecidableEq

/-- Model of out[k] = v on a Python dict: overwrite in place if the key
exists, else add at the end. -/
def dictInsert : Roster → PyStr → List Rec → Roster
  | [], k, v => [(k, v)]
  | (k0, l) :: rest, k, v =>
    if k0 = k then (k0, v) :: rest
    else (k0, l) :: dictInsert rest k v

/-- One iteration of the outer normalization loop shared by
api_roster_set (lines 247-263) and the direct-roster branch of
roster_from_json (lines 142-158): non-list values are skipped, the list
is normalized by normItem, and only a non-empty normalized list is
stored, under the stripped teacher key. -/
def processPair (out : Roster) (p : PyStr × JVal) : Roster :=
  match p.2 with
  | .nonList => out
  | .list items =>
    let norm := items.filterMap normItem
    if norm = [] then out else dictInsert out (pyStrip p.1) norm

/-- Embedding of the normalization loop of api_roster_set (lines
246-263), which is verbatim the loop of the direct-roster branch of
roster_from_json (lines 141-158). -/
def roster_set_normalize (pairs : List (PyStr × JVal)) : Roster :=
  pairs.foldl processPair []

/-- Embedding of the direct-roster branch of roster_from_json (lines
140-159): taken only when every value of the payload dict is a list;
otherwise control falls through to the student-backup branch. -/
def roster_from_json_direct (pairs : List (PyStr × JVal)) : Option Roster :=
  if pairs.all (fun p => match p.2 with | .list _ => true | .nonList => false)
  then some (roster_set_normalize pairs)
  else none

/-- An entry of a student-management backup list (roster_from_json case
2, lines 172-183): a dict carrying its own teacher field, or a non-dict. -/
inductive JStudent where
  | obj (teacher name parentPhone studentPhone : PyStr)
  | nonDict
deriving DecidableEq

/-- The skip condition of lines 173-178: non-dict entries, and entries
whose stripped teacher or name is empty. -/
def skippedStudentB : JStudent → Bool
  | .nonDict => true
  | .obj t n _ _ => decide (pyStrip t = [] ∨ pyStrip n = [])

/-- One iteration of the student loop of roster_from_json case 2 (lines
172-183). -/
def processStudent (out : Roster) : JStudent → Roster
  | .nonDict => out
  | .obj t n pp sp =>
    if pyStrip t = [] ∨ pyStrip n = [] then out
    else setdefaultAppend out (pyStrip t)
      ⟨pyStrip n, normalize_phone pp, normalize_phone sp⟩

/-- Embedding of the student-backup branch of roster_from_json (lines
171-184). -/
def roster_from_students (students : List JStudent) : Roster :=
  students.foldl processStudent []

def kBearerSp : PyStr := "Bearer ".toList

/-- Model of got.startswith(pre). -/
def startsWith : PyStr → PyStr → Bool
  | [], _ => true
  | _ :: _, [] => false
  | p :: ps, x :: xs => if p = x then startsWith ps xs else false

/-- Model of s.split(sep, 1)[1]: everything after the first occurrence
of sep, none when sep does not occur (in which case the Python
subscript would fault; check_auth only evaluates it under the
startswith guard, where a space is present). -/
def splitFirstRest (sep : Char) : PyStr → Option PyStr
  | [] => none
  | x :: xs => if x = sep then some xs else splitFirstRest sep xs

/-- Embedding of check_auth (lines 214-222).  authToken is the stripped
AUTH_TOKEN environment value (line 193); got is the Authorization
header, "" when absent. -/
def check_auth (authToken got : PyStr) : Bool :=
  if authToken = [] then true
  else if startsWith kBearerSp got then
    match splitFirstRest ' ' got with
    | some rest => decide (pyStrip rest = authToken)
    | none => false
  else false

/-- Status and top-level ok flag of a JSON reply. -/
structure HttpResp where
  status : Nat
  ok : Bool
deriving DecidableEq

/-- Embedding of api_roster_get (lines 226-230): 401 on auth failure,
else 200 with the stored roster. -/
def api_roster_get (authToken got : PyStr) (stored : Roster) :
    HttpResp × Option Roster :=
  if check_auth authToken got then (⟨200, true⟩, some stored)
  else (⟨401, false⟩, none)

/-- Embedding of api_roster_set (lines 233-265).  payload is the
"roster" field of the body: none when it is not a dict (reply 400,
store untouched), some pairs when it is a dict.  The second component
is the stored roster after the request. -/
def api_roster_set (authToken got : PyStr) (stored : Roster)
    (payload : Option (List (PyStr × JVal))) : HttpResp × Roster :=
  if check_auth authToken got then
    match payload with
    | none => (⟨400, false⟩, stored)
    | some pairs => (⟨200, true⟩, roster_set_normalize pairs)
  else (⟨401, false⟩, stored)

/-- One entry of the messages list of a bulk request: a dict with its to
and text values (post-str()), the from value when the key is present, or
a non-dict entry. -/
inductive BulkMsg where
  | obj (toAddr text : PyStr) (fromField : Option PyStr)
  | nonDict
deriving DecidableEq

/-- One entry of the results list of sms_send_bulk. -/
structure BulkItem where
  index : Nat
  ok : Bool
  error : Option PyStr
deriving DecidableEq

def kInvalidMessage : PyStr := "invalid message".toList
def kMissingToText : PyStr := "missing to/text".toList

/-- Body of the per-message loop of sms_send_bulk (lines 450-477).  send
is the outcome oracle for send_one_sms: whether the result dict carries
a truthy ok (network and provider behavior are external collaborators). -/
def bulkItem (send : PyStr → PyStr → PyStr → Bool → Bool)
    (fromDefault : PyStr) (dry : Bool) (idx : Nat) : BulkMsg → BulkItem
  | .nonDict => ⟨idx, false, some kInvalidMessage⟩
  | .obj toAddr text fromField =>
    if pyStrip toAddr = [] ∨ pyStrip text = [] then ⟨idx, false, some kMissingToText⟩
    else
      let f := pyStrip (fromField.getD fromDefault)
      let fromNum := if f = [] then fromDefault else f
      ⟨idx, send (pyStrip toAddr) fromNum (pyStrip text) dry, none⟩

/-- Model of for idx, m in enumerate(messages) collecting one result per
message. -/
def withIdx (f : Nat → BulkMsg → BulkItem) : Nat → List BulkMsg → List BulkItem
  | _, [] => []
  | i, m :: ms => f i m :: withIdx f (i + 1) ms

/-- The top-level JSON reply of sms_send_bulk. -/
structure BulkResp where
  ok : Bool
  dry : Bool
  count : Nat
  okCount : Nat
  failCount : Nat
  results : List BulkItem
deriving DecidableEq

inductive BulkOut where
  | err (status : Nat)
  | resp (r : BulkResp)
deriving DecidableEq

/-- Embedding of sms_send_bulk (lines 433-490): 401 on auth failure, 400
on an empty messages list, else one result per message and the summary
counters of lines 479-488. -/
def sms_send_bulk (send : PyStr → PyStr → PyStr → Bool → Bool)
    (authToken got fromDefault : PyStr) (dry : Bool)
    (messages : List BulkMsg) : BulkOut :=
  if check_auth authToken got = false then .err 401
  else if messages = [] then .err 400
  else
    let results := withIdx (bulkItem send fromDefault dry) 0 messages
    let okCount := results.countP (fun it => it.ok)
    .resp ⟨true, dry, results.length, okCount, results.length - okCount, results⟩

/-- Modelled from the spec (section 4.1): a header character survives
normalization when it is an ASCII alphanumeric or a Hangul syllable
(U+AC00..U+D7A3). -/
def specKeepChar (c : Char) : Bool :=
  decide ((48 ≤ c.toNat ∧ c.toNat ≤ 57) ∨ (97 ≤ c.toNat ∧ c.toNat ≤ 122)
    ∨ (65 ≤ c.toNat ∧ c.toNat ≤ 90) ∨ (44032 ≤ c.toNat ∧ c.toNat ≤ 55203))

/-- ASCII lower-casing of one character. -/
def asciiToLower (c : Char) : Char :=
  if 65 ≤ c.toNat ∧ c.toNat ≤ 90 then Char.ofNat (c.toNat + 32) else c

/-- Modelled from the spec (section 4.1): a header is normalized by
lower-casing and stripping every character that is not an ASCII
alphanumeric or a Hangul syllable, before comparison against the
synonym sets.  The source has no such normalization; this definition
follows the words of the spec for comparison. -/
def spec_normalize_header (s : PyStr) : PyStr :=
  (s.map asciiToLower).filter specKeepChar

/-- Modelled from the spec (section 4.1): the teacher synonym set. -/
def spec_teacher_synonyms : List PyStr :=
  ["담당", "담당선생", "담당선생님", "선생님", "teacher", "tch", "담당자"].map String.toList

/-- Modelled from the spec (section 4.1): the name synonym set. -/
def spec_name_synonyms : List PyStr :=
  ["학생이름", "이름", "name", "student", "학생", "성명"].map String.toList

/-! Helper lemmas about the string models. -/

theorem head?_dropWhile_not {α : Type} (p : α → Bool) (l : List α) (x : α)
    (h : (l.dropWhile p).head? = some x) : p x = false := by
  induction l with
  | nil => simp [List.dropWhile] at h
  | cons a t ih =>
    rw [List.dropWhile_cons] at h
    by_cases hp : p a = true
    · rw [if_pos hp] at h
      exact ih h
    · rw [if_neg hp] at h
      simp at h
      simp at hp
      rw [← h]
      exact hp

theorem getLast?_dropWhile {α : Type} (p : α → Bool) (l : List α)
    (h : l.dropWhile p ≠ []) : (l.dropWhile p).getLast? = l.getLast? := by
  induction l with
  | nil => exact absurd rfl h
  | cons a t ih =>
    rw [List.dropWhile_cons] at h ⊢
    by_cases hp : p a = true
    · rw [if_pos hp] at h ⊢
      have ht : t ≠ [] := by
        intro e
        rw [e] at h
        simp [List.dropWhile] at h
      rw [ih h]
      cases t with
      | nil => exact absurd rfl ht
      | cons b u => exact (List.getLast?_cons_cons).symm
    · rw [if_neg hp]

theorem dropWhile_eq_self_of_head {α : Type} (p : α → Bool) (l : List α)
    (h : ∀ x, l.head? = some x → p x = false) : l.dropWhile p = l := by
  cases l with
  | nil => rfl
  | cons a t =>
    rw [List.dropWhile_cons, if_neg]
    rw [h a rfl]
    simp

theorem pyStrip_eq_self (s : PyStr)
    (h1 : ∀ x, s.head? = some x → pyIsSpace x = false)
    (h2 : ∀ x, s.getLast? = some x → pyIsSpace x = false) : pyStrip s = s := by
  unfold pyStrip
  rw [dropWhile_eq_self_of_head _ _ h1]
  rw [dropWhile_eq_self_of_head _ _ (fun x hx => h2 x (by rw [List.head?_reverse] at hx; exact hx))]
  exact s.reverse_reverse

theorem pyStrip_head_not (s : PyStr) (x : Char)
    (h : (pyStrip s).head? = some x) : pyIsSpace x = false := by
  unfold pyStrip at h
  rw [List.head?_reverse] at h
  have hb : (s.dropWhile pyIsSpace).reverse.dropWhile pyIsSpace ≠ [] := by
    intro e
    rw [e] at h
    simp at h
  rw [getLast?_dropWhile _ _ hb, List.getLast?_reverse] at h
  exact head?_dropWhile_not _ _ _ h

theorem pyStrip_getLast_not (s : PyStr) (x : Char)
    (h : (pyStrip s).getLast? = some x) : pyIsSpace x = false := by
  unfold pyStrip at h
  rw [List.getLast?_reverse] at h
  exact head?_dropWhile_not _ _ _ h

theorem pyStrip_idem (s : PyStr) : pyStrip (pyStrip s) = pyStrip s :=
  pyStrip_eq_self _ (pyStrip_head_not s) (pyStrip_getLast_not s)

/-! Claim C4. -/

/-- C4 counterexample: normalize_phone keeps U+00B2 SUPERSCRIPT TWO
(CPython str.isdigit returns True for it), so the output is not made of
ASCII characters 0-9 only, contradicting the claim. -/
theorem C4_counterexample :
    normalize_phone ['²'] = ['²']
    ∧ ¬ (∀ c ∈ normalize_phone ['²'], 48 ≤ c.toNat ∧ c.toNat ≤ 57) := by
  decide

/-- C4 amended: every character of normalize_phone(x) satisfies the
isdigit predicate (not necessarily ASCII 0-9); the empty string maps to
the empty string; exactly the digit characters are kept (so no length
validation or truncation happens); and when the input is pure ASCII the
output does consist of characters 0-9 only. -/
theorem C4_amended (s : PyStr) :
    (normalize_phone s).all pyIsDigit = true
    ∧ normalize_phone ([] : PyStr) = []
    ∧ (normalize_phone s).length = s.countP pyIsDigit
    ∧ (s.all (fun c => decide (c.toNat < 128)) = true →
        (normalize_phone s).all (fun c => decide (48 ≤ c.toNat ∧ c.toNat ≤ 57)) = true) := by
  refine ⟨?_, rfl, ?_, ?_⟩
  · rw [List.all_eq_true]
    intro c hc
    exact (List.mem_filter.mp hc).2
  · simpa [normalize_phone] using (List.countP_eq_length_filter pyIsDigit s).symm
  · intro hall
    rw [List.all_eq_true] at hall ⊢
    intro c hc
    have hmem := List.mem_filter.mp hc
    have hd : pyIsDigit c = true := hmem.2
    have ha : c.toNat < 128 := by simpa using hall c hmem.1
    unfold pyIsDigit at hd
    have hprop := of_decide_eq_true hd
    refine decide_eq_true ?_
    rcases hprop with h | h | h | h | h | h <;> omega

/-- C4 amended witness at a concrete ASCII input. -/
theorem C4_amended_witness :
    (normalize_phone "a1b2".toList).all (fun c => decide (48 ≤ c.toNat ∧ c.toNat ≤ 57)) = true :=
  (C4_amended "a1b2".toList).2.2.2 (by decide)

/-! Claim C5. -/

/-- C5: normalize_phone is idempotent. -/
theorem C5_normalize_phone_idempotent (s : PyStr) :
    normalize_phone (normalize_phone s) = normalize_phone s := by
  simp [normalize_phone, List.filter_filter]

/-! Helper lemmas about header lookup. -/

theorem pyOrStr_none (b : PyStr) : pyOrStr none b = b := rfl

theorem pyOrStr_some_nil (b : PyStr) : pyOrStr (some []) b = b := by
  simp [pyOrStr]

theorem pyOrStr_some_ne (v b : PyStr) (hv : v ≠ []) : pyOrStr (some v) b = v := by
  simp [pyOrStr, hv]

theorem rowGet_none_of_absent (headers cells : List PyStr) (k : PyStr)
    (h : lastIdx? headers k = none) : rowGet headers cells k = none := by
  unfold rowGet
  rw [h]

theorem resolveField_nil_of_absent (keys : List PyStr) (headers cells : List PyStr)
    (h : ∀ k ∈ keys, lastIdx? headers k = none) :
    resolveField keys headers cells = [] := by
  induction keys with
  | nil => rfl
  | cons k0 rest ih =>
    unfold resolveField
    rw [rowGet_none_of_absent headers cells k0 (h k0 (List.mem_cons_self k0 rest)), pyOrStr_none]
    exact ih (fun k hm => h k (List.mem_cons_of_mem k0 hm))

theorem resolveField_eq_of_unique (keys : List PyStr) (headers cells : List PyStr)
    (k v : PyStr) (hk : k ∈ keys)
    (hg : rowGet headers cells k = some v) (hv : v ≠ [])
    (ho : ∀ k2 ∈ keys, k2 ≠ k →
      rowGet headers cells k2 = none ∨ rowGet headers cells k2 = some []) :
    resolveField keys headers cells = v := by
  induction keys with
  | nil => cases hk
  | cons k0 rest ih =>
    by_cases he : k0 = k
    · subst he
      unfold resolveField
      rw [hg, pyOrStr_some_ne _ _ hv]
    · have hk2 : k ∈ rest := by
        rcases List.mem_cons.mp hk with h1 | h1
        · exact absurd h1.symm he
        · exact h1
      have h0 := ho k0 (List.mem_cons_self k0 rest) he
      have htail := ih hk2 (fun k2 hm hne => ho k2 (List.mem_cons_of_mem k0 hm) hne)
      unfold resolveField
      rcases h0 with h0 | h0
      · rw [h0, pyOrStr_none]
        exact htail
      · rw [h0, pyOrStr_some_nil]
        exact htail

/-! Claim C1. -/

/-- C1 counterexample: the headers TEACHER and NAME normalize, under the
normalization the claim describes, to members of the synonym sets, yet
the code resolves neither column (lookup is exact and case-sensitive)
and the data row is dropped. -/
theorem C1_counterexample :
    spec_normalize_header "TEACHER".toList ∈ spec_teacher_synonyms
    ∧ spec_normalize_header "NAME".toList ∈ spec_name_synonyms
    ∧ resolveTeacher ["TEACHER".toList, "NAME".toList] ["Kim".toList, "Lee".toList] = []
    ∧ resolveName ["TEACHER".toList, "NAME".toList] ["Kim".toList, "Lee".toList] = []
    ∧ roster_from_csv_rows ["TEACHER".toList, "NAME".toList]
        [["Kim".toList, "Lee".toList]] = [] := by
  decide

/-- C1 amended: header matching is exact string equality (no casing or
punctuation normalization) against the fixed key sets.  Whenever a
teacher key and a name key are present as headers — in any relative
order, at any positions — and the corresponding cells are non-empty,
while the other keys of each set contribute nothing, both fields resolve
to their cell values (stripped). -/
theorem C1_amended (headers cells : List PyStr) (kt kn vt vn : PyStr)
    (hktMem : kt ∈ teacherKeys) (hknMem : kn ∈ nameKeys)
    (hgt : rowGet headers cells kt = some vt) (hvt : vt ≠ [])
    (hgn : rowGet headers cells kn = some vn) (hvn : vn ≠ [])
    (hto : ∀ k ∈ teacherKeys, k ≠ kt →
      rowGet headers cells k = none ∨ rowGet headers cells k = some [])
    (hno : ∀ k ∈ nameKeys, k ≠ kn →
      rowGet headers cells k = none ∨ rowGet headers cells k = some []) :
    resolveTeacher headers cells = pyStrip vt
    ∧ resolveName headers cells = pyStrip vn := by
  constructor
  · unfold resolveTeacher
    rw [resolveField_eq_of_unique teacherKeys headers cells kt vt hktMem hgt hvt hto]
  · unfold resolveName
    rw [resolveField_eq_of_unique nameKeys headers cells kn vn hknMem hgn hvn hno]

/-- C1 amended witness: Korean synonym headers in the order 담당, 이름
resolve both columns. -/
theorem C1_amended_witness :
    resolveTeacher ["담당".toList, "이름".toList] ["Kim".toList, "Lee".toList]
      = pyStrip "Kim".toList
    ∧ resolveName ["담당".toList, "이름".toList] ["Kim".toList, "Lee".toList]
      = pyStrip "Lee".toList :=
  C1_amended ["담당".toList, "이름".toList] ["Kim".toList, "Lee".toList]
    kDamdang kIreum "Kim".toList "Lee".toList
    (by decide) (by decide) (by decide) (by decide) (by decide) (by decide)
    (by decide) (by decide)

/-! Claim C2. -/

theorem skippedRow_of_absent (headers : List PyStr)
    (h : (∀ k ∈ teacherKeys, lastIdx? headers k = none)
      ∨ (∀ k ∈ nameKeys, lastIdx? headers k = none)) :
    ∀ cells, skippedRowB headers cells = true := by
  intro cells
  unfold skippedRowB
  refine decide_eq_true ?_
  rcases h with h | h
  · left
    unfold resolveTeacher
    rw [resolveField_nil_of_absent teacherKeys headers cells h]
    rfl
  · right
    unfold resolveName
    rw [resolveField_nil_of_absent nameKeys headers cells h]
    rfl

theorem foldl_skip_all (headers : List PyStr)
    (hskip : ∀ cells, skippedRowB headers cells = true) :
    ∀ (rows : List (List PyStr)) (out : Roster),
      rows.foldl (processRow headers) out = out := by
  intro rows
  induction rows with
  | nil => intro out; rfl
  | cons r rs ih =>
    intro out
    rw [List.foldl_cons]
    have hr : processRow headers out r = out := by
      unfold processRow
      rw [hskip r]
      simp
    rw [hr]
    exact ih out

/-- C2 counterexample: with headers foo, bar (no recognized synonym for
teacher or name) and a data row, roster building returns the ordinary
empty roster and the upload endpoint replies 200 with ok True and an
empty teacher list — no ColumnDetectionFailure error, and nothing names
the unresolved fields. -/
theorem C2_counterexample :
    roster_from_csv_rows ["foo".toList, "bar".toList] [["Kim".toList, "Lee".toList]] = []
    ∧ api_roster_upload_csv ["foo".toList, "bar".toList] [["Kim".toList, "Lee".toList]]
      = (⟨200, true, [], "csv".toList⟩, []) := by
  decide

/-- C2 amended: when the headers contain no teacher key or no name key,
every row is skipped and roster building returns the empty roster; no
error is reported — the upload endpoint stores that empty roster and
replies 200 with ok True and no teacher names. -/
theorem C2_amended (headers : List PyStr) (rows : List (List PyStr))
    (h : (∀ k ∈ teacherKeys, lastIdx? headers k = none)
      ∨ (∀ k ∈ nameKeys, lastIdx? headers k = none)) :
    roster_from_csv_rows headers rows = []
    ∧ api_roster_upload_csv headers rows
      = (⟨200, true, [], "csv".toList⟩, []) := by
  have hempty : roster_from_csv_rows headers rows = [] :=
    foldl_skip_all headers (skippedRow_of_absent headers h) rows []
  refine ⟨hempty, ?_⟩
  unfold api_roster_upload_csv
  rw [hempty]
  rfl

/-- C2 amended witness at the foo, bar headers. -/
theorem C2_amended_witness :
    roster_from_csv_rows ["foo".toList, "bar".toList]
      [["A".toList, "B".toList], ["C".toList, "D".toList]] = []
    ∧ api_roster_upload_csv ["foo".toList, "bar".toList]
      [["A".toList, "B".toList], ["C".toList, "D".toList]]
      = (⟨200, true, [], "csv".toList⟩, []) :=
  C2_amended ["foo".toList, "bar".toList]
    [["A".toList, "B".toList], ["C".toList, "D".toList]]
    (Or.inl (by decide))

/-! Claim C7. -/

/-- C7 counterexample: a header-only input (teacher, name, zero data
rows) produces the same ordinary result as an input whose mandatory
columns cannot be detected — the empty roster with a 200 ok reply.  No
EmptyInput error exists, and nothing distinguishes the two cases. -/
theorem C7_counterexample :
    api_roster_upload_csv ["teacher".toList, "name".toList] []
      = (⟨200, true, [], "csv".toList⟩, [])
    ∧ roster_from_csv_rows ["teacher".toList, "name".toList] []
      = roster_from_csv_rows ["zzz".toList] [["Kim".toList]] := by
  decide

/-- C7 amended: with zero data rows roster building returns the empty
roster and the upload endpoint replies 200 with ok True, for every
header list — the same observable outcome as the missing-column case,
with no distinct EmptyInput error. -/
theorem C7_amended (headers : List PyStr) :
    roster_from_csv_rows headers [] = []
    ∧ api_roster_upload_csv headers []
      = (⟨200, true, [], "csv".toList⟩, []) := by
  exact ⟨rfl, rfl⟩

/-! Counting lemmas for claim C6. -/

theorem totalRecs_setdefaultAppend (out : Roster) (k : PyStr) (r : Rec) :
    totalRecs (setdefaultAppend out k r) = totalRecs out + 1 := by
  induction out with
  | nil => rfl
  | cons p rest ih =>
    obtain ⟨k0, l⟩ := p
    unfold setdefaultAppend
    by_cases he : k0 = k
    · rw [if_pos he]
      simp [totalRecs, List.length_append]
      omega
    · rw [if_neg he]
      simp [totalRecs, ih]
      omega

theorem totalRecs_processRow (headers : List PyStr) (out : Roster) (cells : List PyStr) :
    totalRecs (processRow headers out cells)
      = totalRecs out + (if skippedRowB headers cells then 0 else 1) := by
  unfold processRow
  by_cases hs : skippedRowB headers cells = true
  · rw [if_pos hs, if_pos hs]
    rfl
  · rw [if_neg hs, if_neg hs]
    exact totalRecs_setdefaultAppend out _ _

theorem totalRecs_foldl_rows (headers : List PyStr) :
    ∀ (rows : List (List PyStr)) (out : Roster),
      totalRecs (rows.foldl (processRow headers) out)
        = totalRecs out + rows.countP (fun c => ! skippedRowB headers c) := by
  intro rows
  induction rows with
  | nil => intro out; simp
  | cons r rs ih =>
    intro out
    rw [List.foldl_cons, ih, totalRecs_processRow, List.countP_cons]
    cases hs : skippedRowB headers r
    · simp [hs]
      omega
    · simp [hs]

theorem countP_not_eq_sub {α : Type} (p : α → Bool) (l : List α) :
    l.countP (fun a => ! p a) = l.length - l.countP p := by
  induction l with
  | nil => rfl
  | cons a t ih =>
    rw [List.countP_cons, List.countP_cons, List.length_cons]
    have hle := List.countP_le_length (p := p) (l := t)
    cases hp : p a
    · simp [hp, ih]
      omega
    · simp [hp, ih]

theorem lastIdx?_sound : ∀ (l : List PyStr) (key : PyStr) (i : Nat),
    lastIdx? l key = some i → l.get? i = some key := by
  intro l
  induction l with
  | nil =>
    intro key i h
    simp [lastIdx?] at h
  | cons a t ih =>
    intro key i h
    unfold lastIdx? at h
    cases ht : lastIdx? t key with
    | some j =>
      rw [ht] at h
      injection h with h2
      subst h2
      rw [List.get?_cons_succ]
      exact ih key j ht
    | none =>
      rw [ht] at h
      by_cases ha : a = key
      · rw [if_pos ha] at h
        injection h with h2
        subst h2
        rw [List.get?_cons_zero, ha]
      · rw [if_neg ha] at h
        cases h

theorem rowGet_some_elim (headers cells : List PyStr) (k v : PyStr)
    (h : rowGet headers cells k = some v) :
    ∃ i, lastIdx? headers k = some i ∧ cells.get? i = some v := by
  unfold rowGet at h
  cases hl : lastIdx? headers k with
  | none =>
    rw [hl] at h
    cases h
  | some i =>
    rw [hl] at h
    exact ⟨i, rfl, h⟩

theorem resolveField_ne_nil_elim (keys : List PyStr) (headers cells : List PyStr)
    (h : resolveField keys headers cells ≠ []) :
    ∃ k ∈ keys, ∃ v, rowGet headers cells k = some v ∧ v ≠ [] := by
  induction keys with
  | nil => exact absurd rfl h
  | cons k0 rest ih =>
    unfold resolveField at h
    cases hg : rowGet headers cells k0 with
    | none =>
      rw [hg, pyOrStr_none] at h
      obtain ⟨k, hk, hv⟩ := ih h
      exact ⟨k, List.mem_cons_of_mem _ hk, hv⟩
    | some v =>
      by_cases hv : v = []
      · subst hv
        rw [hg, pyOrStr_some_nil] at h
        obtain ⟨k, hk, hv⟩ := ih h
        exact ⟨k, List.mem_cons_of_mem _ hk, hv⟩
      · exact ⟨k0, List.mem_cons_self _ _, v, hg, hv⟩

theorem short_row_skipped (headers cells : List PyStr) (hlen : cells.length < 2) :
    skippedRowB headers cells = true := by
  by_contra hs
  have hs2 : skippedRowB headers cells = false := by
    cases hb : skippedRowB headers cells
    · rfl
    · exact absurd hb hs
  unfold skippedRowB at hs2
  have hns := of_decide_eq_false hs2
  push_neg at hns
  obtain ⟨ht, hn⟩ := hns
  have htf : resolveField teacherKeys headers cells ≠ [] := by
    intro e
    unfold resolveTeacher at ht
    rw [e] at ht
    exact ht rfl
  have hnf : resolveField nameKeys headers cells ≠ [] := by
    intro e
    unfold resolveName at hn
    rw [e] at hn
    exact hn rfl
  obtain ⟨kt, hktMem, vt, hgt, _⟩ := resolveField_ne_nil_elim teacherKeys headers cells htf
  obtain ⟨kn, hknMem, vn, hgn, _⟩ := resolveField_ne_nil_elim nameKeys headers cells hnf
  obtain ⟨i, hli, hci⟩ := rowGet_some_elim headers cells kt vt hgt
  obtain ⟨j, hlj, hcj⟩ := rowGet_some_elim headers cells kn vn hgn
  have hi : i < cells.length := by
    obtain ⟨hw, -⟩ := List.get?_eq_some.mp hci
    exact hw
  have hj : j < cells.length := by
    obtain ⟨hw, -⟩ := List.get?_eq_some.mp hcj
    exact hw
  have hi0 : i = 0 := by omega
  have hj0 : j = 0 := by omega
  subst hi0
  subst hj0
  have hki := lastIdx?_sound headers kt 0 hli
  have hkj := lastIdx?_sound headers kn 0 hlj
  rw [hki] at hkj
  injection hkj with hkk
  have hdisj : ∀ a ∈ teacherKeys, ∀ b ∈ nameKeys, a ≠ b := by decide
  exact hdisj kt hktMem kn hknMem hkk

theorem totalRecs_processStudent (out : Roster) (s : JStudent) :
    totalRecs (processStudent out s)
      = totalRecs out + (if skippedStudentB s then 0 else 1) := by
  cases s with
  | nonDict => rfl
  | obj t n pp sp =>
    by_cases hc : (pyStrip t = [] ∨ pyStrip n = [])
    · simp only [processStudent, skippedStudentB]
      rw [if_pos hc]
      simp [hc]
    · simp only [processStudent, skippedStudentB]
      rw [if_neg hc, totalRecs_setdefaultAppend]
      simp [hc]

theorem totalRecs_foldl_students :
    ∀ (students : List JStudent) (out : Roster),
      totalRecs (students.foldl processStudent out)
        = totalRecs out + students.countP (fun s => ! skippedStudentB s) := by
  intro students
  induction students with
  | nil => intro out; simp
  | cons s ss ih =>
    intro out
    rw [List.foldl_cons, ih, totalRecs_processStudent, List.countP_cons]
    cases hs : skippedStudentB s
    · simp [hs]
      omega
    · simp [hs]

/-! Claim C6. -/

/-- C6: a row whose resolved teacher or name is empty after stripping is
skipped; a row with fewer than two cells is always such a row; and the
total number of records equals the number of rows minus the skipped
ones — for the csv path and for the student-backup json path alike. -/
theorem C6_skip_and_count (headers : List PyStr) (rows : List (List PyStr))
    (students : List JStudent) :
    totalRecs (roster_from_csv_rows headers rows)
      = rows.length - rows.countP (skippedRowB headers)
    ∧ (∀ cells ∈ rows, cells.length < 2 → skippedRowB headers cells = true)
    ∧ totalRecs (roster_from_students students)
      = students.length - students.countP skippedStudentB := by
  refine ⟨?_, ?_, ?_⟩
  · unfold roster_from_csv_rows
    rw [totalRecs_foldl_rows, countP_not_eq_sub]
    simp [totalRecs]
  · intro cells _ h
    exact short_row_skipped headers cells h
  · unfold roster_from_students
    rw [totalRecs_foldl_students, countP_not_eq_sub]
    simp [totalRecs]

/-- C6 witness: three rows — one valid, one with a single cell, one with
a whitespace teacher — produce exactly one record, and the single-cell
row is skipped. -/
theorem C6_skip_and_count_witness :
    totalRecs (roster_from_csv_rows ["teacher".toList, "name".toList]
      [["Kim".toList, "Lee".toList], ["solo".toList], [" ".toList, "x".toList]]) = 1
    ∧ skippedRowB ["teacher".toList, "name".toList] ["solo".toList] = true :=
  ⟨(C6_skip_and_count ["teacher".toList, "name".toList]
      [["Kim".toList, "Lee".toList], ["solo".toList], [" ".toList, "x".toList]] []).1.trans
      (by decide),
   (C6_skip_and_count ["teacher".toList, "name".toList]
      [["Kim".toList, "Lee".toList], ["solo".toList], [" ".toList, "x".toList]] []).2.1
      ["solo".toList] (by decide) (by decide)⟩

/-! Claim C3. -/

/-- C3 counterexample: two identical rows for the same teacher and name
produce two records that are completely identical — the records carry
only name, parentPhone and studentPhone, so no id (teacher + separator +
name, with or without a row index) exists, and nothing is unique within
the teacher list. -/
theorem C3_counterexample :
    roster_from_csv_rows ["teacher".toList, "name".toList]
      [["Kim".toList, "Lee".toList], ["Kim".toList, "Lee".toList]]
      = [("Kim".toList, [⟨"Lee".toList, [], []⟩, ⟨"Lee".toList, [], []⟩])] := by
  decide

/-- C3 amended: a record is determined by the resolved name and phone
fields alone (there is no id field), so any row accepted twice yields
two equal records under its teacher key. -/
theorem C3_amended (headers cells : List PyStr)
    (h : skippedRowB headers cells = false) :
    roster_from_csv_rows headers [cells, cells]
      = [(resolveTeacher headers cells,
          [mkRec headers cells, mkRec headers cells])] := by
  have hstep : ∀ out, processRow headers out cells
      = setdefaultAppend out (resolveTeacher headers cells) (mkRec headers cells) := by
    intro out
    unfold processRow
    rw [h]
    simp
  unfold roster_from_csv_rows
  rw [List.foldl_cons, List.foldl_cons, List.foldl_nil, hstep, hstep]
  simp [setdefaultAppend]

/-- C3 amended witness at a concrete duplicated row. -/
theorem C3_amended_witness :
    roster_from_csv_rows ["teacher".toList, "name".toList]
      [["A".toList, "B".toList], ["A".toList, "B".toList]]
      = [(resolveTeacher ["teacher".toList, "name".toList] ["A".toList, "B".toList],
          [mkRec ["teacher".toList, "name".toList] ["A".toList, "B".toList],
           mkRec ["teacher".toList, "name".toList] ["A".toList, "B".toList]])] :=
  C3_amended ["teacher".toList, "name".toList] ["A".toList, "B".toList] (by decide)

/-! Helper lemmas for claim C8. -/

theorem all_pyIsDigit_normalize (s : PyStr) :
    (normalize_phone s).all pyIsDigit = true := by
  rw [List.all_eq_true]
  intro c hc
  exact (List.mem_filter.mp hc).2

theorem normItem_good (it : JItem) (r : Rec) (h : normItem it = some r) :
    pyStrip r.name = r.name ∧ r.name ≠ []
    ∧ r.parentPhone.all pyIsDigit = true ∧ r.studentPhone.all pyIsDigit = true := by
  cases it with
  | nonDict => cases h
  | obj n pp sp =>
    simp only [normItem] at h
    by_cases hn : pyStrip n = []
    · rw [if_pos hn] at h
      cases h
    · rw [if_neg hn] at h
      injection h with h2
      subst h2
      exact ⟨pyStrip_idem n, hn, all_pyIsDigit_normalize pp, all_pyIsDigit_normalize sp⟩

theorem dictInsert_preserve (P : PyStr × List Rec → Prop) :
    ∀ (d : Roster) (k : PyStr) (v : List Rec),
      (∀ p ∈ d, P p) → P (k, v) → ∀ p ∈ dictInsert d k v, P p := by
  intro d
  induction d with
  | nil =>
    intro k v _ hv p hp
    simp [dictInsert] at hp
    subst hp
    exact hv
  | cons q rest ih =>
    obtain ⟨k0, l⟩ := q
    intro k v hd hv p hp
    unfold dictInsert at hp
    by_cases he : k0 = k
    · rw [if_pos he] at hp
      rcases List.mem_cons.mp hp with h1 | h1
      · subst h1
        subst he
        exact hv
      · exact hd _ (List.mem_cons_of_mem _ h1)
    · rw [if_neg he] at hp
      rcases List.mem_cons.mp hp with h1 | h1
      · subst h1
        exact hd _ (List.mem_cons_self _ _)
      · exact ih k v (fun q hq => hd q (List.mem_cons_of_mem _ hq)) hv _ h1

theorem processPair_preserve (P : PyStr × List Rec → Prop)
    (hP : ∀ (t : PyStr) (norm : List Rec), norm ≠ [] →
      (∀ r ∈ norm, pyStrip r.name = r.name ∧ r.name ≠ []
        ∧ r.parentPhone.all pyIsDigit = true ∧ r.studentPhone.all pyIsDigit = true) →
      P (t, norm))
    (out : Roster) (q : PyStr × JVal) (hd : ∀ p ∈ out, P p) :
    ∀ p ∈ processPair out q, P p := by
  obtain ⟨t, v⟩ := q
  cases v with
  | nonList => exact hd
  | list items =>
    simp only [processPair]
    by_cases hnorm : items.filterMap normItem = []
    · rw [if_pos hnorm]
      exact hd
    · rw [if_neg hnorm]
      refine dictInsert_preserve P out (pyStrip t) (items.filterMap normItem) hd ?_
      refine hP _ _ hnorm ?_
      intro r hr
      obtain ⟨it, -, hit⟩ := List.mem_filterMap.mp hr
      exact normItem_good it r hit

/-! Claim C8. -/

/-- C8: in the roster stored by POST /api/roster (and equally by the
direct-roster branch of roster_from_json, which runs the same loop),
every teacher key maps to a non-empty record list, and every record has
a stripped non-empty name and digit-only phones; a teacher whose list
normalizes to empty is omitted.  The final conjunct ties the
direct-roster branch to the same normalization. -/
theorem C8_roster_set_invariant (pairs : List (PyStr × JVal)) :
    (∀ p ∈ roster_set_normalize pairs, p.2 ≠ []
      ∧ ∀ r ∈ p.2, pyStrip r.name = r.name ∧ r.name ≠ []
        ∧ r.parentPhone.all pyIsDigit = true ∧ r.studentPhone.all pyIsDigit = true)
    ∧ (∀ ros, roster_from_json_direct pairs = some ros →
        ros = roster_set_normalize pairs) := by
  constructor
  · have main : ∀ (ps : List (PyStr × JVal)) (out : Roster),
        (∀ p ∈ out, p.2 ≠ []
          ∧ ∀ r ∈ p.2, pyStrip r.name = r.name ∧ r.name ≠ []
            ∧ r.parentPhone.all pyIsDigit = true ∧ r.studentPhone.all pyIsDigit = true) →
        ∀ p ∈ ps.foldl processPair out, p.2 ≠ []
          ∧ ∀ r ∈ p.2, pyStrip r.name = r.name ∧ r.name ≠ []
            ∧ r.parentPhone.all pyIsDigit = true ∧ r.studentPhone.all pyIsDigit = true := by
      intro ps
      induction ps with
      | nil => intro out h; exact h
      | cons q rest ih =>
        intro out h
        rw [List.foldl_cons]
        refine ih (processPair out q) ?_
        refine processPair_preserve _ ?_ out q h
        intro t norm hne hrec
        exact ⟨hne, hrec⟩
    intro p hp
    exact main pairs [] (by intro p hp; cases hp) p hp
  · intro ros hros
    unfold roster_from_json_direct at hros
    by_cases hall : pairs.all
        (fun p => match p.2 with | .list _ => true | .nonList => false) = true
    · rw [if_pos hall] at hros
      injection hros with h2
      exact h2.symm
    · rw [if_neg hall] at hros
      cases hros

/-- C8 witness at a concrete payload with a whitespace-padded name, a
formatted phone, a non-dict entry and an all-empty teacher list. -/
theorem C8_roster_set_invariant_witness :
    ("t".toList, [(⟨"kim".toList, "0101".toList, "2".toList⟩ : Rec)]).2 ≠ []
    ∧ ∀ r ∈ ("t".toList, [(⟨"kim".toList, "0101".toList, "2".toList⟩ : Rec)]).2,
        pyStrip r.name = r.name ∧ r.name ≠ []
        ∧ r.parentPhone.all pyIsDigit = true ∧ r.studentPhone.all pyIsDigit = true :=
  (C8_roster_set_invariant
      [("t".toList, JVal.list [JItem.obj " kim ".toList "010-1".toList "x2y".toList,
        JItem.nonDict]),
       ("empty".toList, JVal.list [JItem.nonDict])]).1
    ("t".toList, [(⟨"kim".toList, "0101".toList, "2".toList⟩ : Rec)]) (by decide)

/-! Helper lemmas for claim C9. -/

theorem startsWith_iff_append (p : PyStr) :
    ∀ s : PyStr, startsWith p s = true ↔ ∃ t, s = p ++ t := by
  induction p with
  | nil =>
    intro s
    constructor
    · intro _
      exact ⟨s, rfl⟩
    · intro _
      rfl
  | cons a as ih =>
    intro s
    cases s with
    | nil =>
      simp only [startsWith]
      constructor
      · intro h
        cases h
      · rintro ⟨t, ht⟩
        cases ht
    | cons b bs =>
      simp only [startsWith]
      by_cases hab : a = b
      · subst hab
        rw [if_pos rfl, ih bs]
        constructor
        · rintro ⟨t, rfl⟩
          exact ⟨t, rfl⟩
        · rintro ⟨t, ht⟩
          injection ht with _ h2
          exact ⟨t, h2⟩
      · rw [if_neg hab]
        constructor
        · intro h
          cases h
        · rintro ⟨t, ht⟩
          injection ht with h1 _
          exact absurd h1.symm hab

theorem splitFirstRest_bearer (t : PyStr) :
    splitFirstRest ' ' (kBearerSp ++ t) = some t := by
  simp [kBearerSp, splitFirstRest]

theorem drop7_bearer (t : PyStr) : (kBearerSp ++ t).drop 7 = t := by
  have h7 : kBearerSp.length = 7 := by decide
  rw [← h7, List.drop_left]

/-! Claim C9. -/

/-- C9: check_auth authorizes everything when the configured token is
empty; with a non-empty token it authorizes exactly the requests whose
Authorization header starts with the Bearer prefix and whose remainder,
stripped, equals the token; the guarded roster endpoints reply 401
exactly when check_auth rejects, returning no roster and leaving the
stored roster untouched. -/
theorem C9_check_auth (authToken got : PyStr) (stored : Roster)
    (payload : Option (List (PyStr × JVal))) :
    (authToken = [] → check_auth authToken got = true)
    ∧ (authToken ≠ [] →
        (check_auth authToken got = true
          ↔ startsWith kBearerSp got = true ∧ pyStrip (got.drop 7) = authToken))
    ∧ ((api_roster_get authToken got stored).1.status = 401
        ↔ check_auth authToken got = false)
    ∧ ((api_roster_get authToken got stored).1.status = 401 →
        (api_roster_get authToken got stored).2 = none)
    ∧ ((api_roster_set authToken got stored payload).1.status = 401
        ↔ check_auth authToken got = false)
    ∧ ((api_roster_set authToken got stored payload).1.status = 401 →
        (api_roster_set authToken got stored payload).2 = stored) := by
  refine ⟨?_, ?_, ?_, ?_, ?_, ?_⟩
  · intro h
    unfold check_auth
    rw [if_pos h]
  · intro h
    unfold check_auth
    rw [if_neg h]
    by_cases hpre : startsWith kBearerSp got = true
    · rw [if_pos hpre]
      obtain ⟨t, rfl⟩ := (startsWith_iff_append kBearerSp got).mp hpre
      rw [splitFirstRest_bearer t, drop7_bearer t]
      simp [hpre]
    · rw [if_neg hpre]
      simp [hpre]
  · unfold api_roster_get
    by_cases hc : check_auth authToken got = true
    · rw [if_pos hc]
      simp [hc]
    · have hc2 : check_auth authToken got = false := by
        simpa using hc
      rw [if_neg hc]
      simp [hc2]
  · unfold api_roster_get
    by_cases hc : check_auth authToken got = true
    · rw [if_pos hc]
      intro h
      simp at h
    · rw [if_neg hc]
      intro _
      rfl
  · unfold api_roster_set
    by_cases hc : check_auth authToken got = true
    · rw [if_pos hc]
      cases payload with
      | none => simp [hc]
      | some pairs => simp [hc]
    · have hc2 : check_auth authToken got = false := by
        simpa using hc
      rw [if_neg hc]
      simp [hc2]
  · unfold api_roster_set
    by_cases hc : check_auth authToken got = true
    · rw [if_pos hc]
      cases payload with
      | none =>
        intro h
        simp at h
      | some pairs =>
        intro h
        simp at h
    · rw [if_neg hc]
      intro _
      rfl

/-- C9 witness: with token tok, a Bearer header carrying extra
whitespace around the token authorizes. -/
theorem C9_check_auth_witness :
    check_auth "tok".toList "Bearer  tok ".toList = true :=
  ((C9_check_auth "tok".toList "Bearer  tok ".toList [] none).2.1
      (by decide)).mpr (by decide)

/-! Helper lemmas for claim C10. -/

theorem bulkItem_index (send : PyStr → PyStr → PyStr → Bool → Bool)
    (fromDefault : PyStr) (dry : Bool) (idx : Nat) (m : BulkMsg) :
    (bulkItem send fromDefault dry idx m).index = idx := by
  cases m with
  | nonDict => rfl
  | obj a b c =>
    simp only [bulkItem]
    by_cases h : (pyStrip a = [] ∨ pyStrip b = [])
    · rw [if_pos h]
    · rw [if_neg h]

theorem withIdx_length (f : Nat → BulkMsg → BulkItem) :
    ∀ (l : List BulkMsg) (i : Nat), (withIdx f i l).length = l.length := by
  intro l
  induction l with
  | nil => intro i; rfl
  | cons m ms ih =>
    intro i
    simp only [withIdx, List.length_cons, ih]

theorem withIdx_map_index (send : PyStr → PyStr → PyStr → Bool → Bool)
    (fromDefault : PyStr) (dry : Bool) :
    ∀ (l : List BulkMsg) (i : Nat),
      (withIdx (bulkItem send fromDefault dry) i l).map (fun it => it.index)
        = List.range' i l.length := by
  intro l
  induction l with
  | nil => intro i; rfl
  | cons m ms ih =>
    intro i
    simp only [withIdx, List.map_cons, bulkItem_index, ih, List.length_cons]
    rw [List.range'_succ]

/-! Claim C10. -/

/-- C10: an authorized bulk request with a non-empty messages list gets
a response (not an error status) whose top-level ok is true no matter
how many individual sends fail, whose count equals the number of
messages, whose results carry one entry per message in input order with
its index, and whose failCount is count minus okCount. -/
theorem C10_bulk (send : PyStr → PyStr → PyStr → Bool → Bool)
    (authToken got fromDefault : PyStr) (dry : Bool) (messages : List BulkMsg)
    (hauth : check_auth authToken got = true) (hne : messages ≠ []) :
    ∃ r, sms_send_bulk send authToken got fromDefault dry messages = BulkOut.resp r
      ∧ r.ok = true
      ∧ r.count = messages.length
      ∧ r.results.length = messages.length
      ∧ r.results.map (fun it => it.index) = List.range messages.length
      ∧ r.failCount = r.count - r.okCount := by
  have h1 : ¬ (check_auth authToken got = false) := by
    simp [hauth]
  unfold sms_send_bulk
  rw [if_neg h1, if_neg hne]
  refine ⟨_, rfl, rfl, ?_, ?_, ?_, rfl⟩
  · exact withIdx_length _ messages 0
  · exact withIdx_length _ messages 0
  · rw [withIdx_map_index send fromDefault dry messages 0, List.range_eq_range']

/-- C10 witness: one valid message and one non-dict entry, with a send
oracle that fails everything — the reply is still ok with count 2. -/
theorem C10_bulk_witness :
    ∃ r, sms_send_bulk (fun _ _ _ _ => false) [] [] "010".toList false
        [BulkMsg.obj "1".toList "hi".toList none, BulkMsg.nonDict] = BulkOut.resp r
      ∧ r.ok = true
      ∧ r.count = [BulkMsg.obj "1".toList "hi".toList none, BulkMsg.nonDict].length
      ∧ r.results.length
          = [BulkMsg.obj "1".toList "hi".toList none, BulkMsg.nonDict].length
      ∧ r.results.map (fun it => it.index)
          = List.range [BulkMsg.obj "1".toList "hi".toList none, BulkMsg.nonDict].length
      ∧ r.failCount = r.count - r.okCount :=
  C10_bulk (fun _ _ _ _ => false) [] [] "010".toList false
    [BulkMsg.obj "1".toList "hi".toList none, BulkMsg.nonDict]
    (by decide) (by decide)
